import Mathlib

/-!
# Verification of the Weez embeddings pipeline (`src/app.py`)

A shallow embedding of the batch embedding pipeline: per-item transformer
(`process_single_blob`), bounded worker pool, batch aggregation
(`process_user_metadata_to_embeddings`), the HTTP-level result shaping
(`process_embeddings`), the output writer (`upload_embeddings`), the
embedding-input text derivation (`compute_embeddings_with_azure_openai`),
and the single-item name normalization (`process_single_embedding`).

External collaborators (Azure blob storage, the Azure OpenAI embeddings
service, `json.loads`) are modelled as oracles packaged in an `Env`
structure: each may succeed with a value or fail with a Python exception's
message string (`str(e)`), exactly the information the source's
`except Exception as e` handlers observe. Blob stores are modelled as
partial maps from blob name to stored record. Python `dict`s produced by
`json.loads` are modelled as insertion-ordered association lists
(CPython dicts preserve insertion order), with scalar JSON values.
-/

namespace WeezApp

/-- A scalar Python value as produced by `json.loads` for a metadata field
(strings, integers, booleans, JSON `null`). -/
inductive PyVal where
  | str : String → PyVal
  | int : Int → PyVal
  | bool : Bool → PyVal
  | none : PyVal
  deriving DecidableEq, Repr

/-- Python's `str(value)` on a scalar JSON value. -/
def pyStr : PyVal → String
  | .str s => s
  | .int n => toString n
  | .bool true => "True"
  | .bool false => "False"
  | .none => "None"

/-- A parsed metadata record: a Python dict modelled as an
insertion-ordered association list (key, value). -/
def Metadata := List (String × PyVal)

instance : DecidableEq Metadata := by
  unfold Metadata; infer_instance

/-- Python's `d.get(key, default)` on a dict: the value bound to `key`,
or `default` when absent. -/
def dictGet (d : Metadata) (key : String) (default : PyVal) : PyVal :=
  match d.lookup key with
  | some v => v
  | Option.none => default

/-- Python's `d.values()` on a dict: the values in insertion order. -/
def dictValues (d : Metadata) : List PyVal := d.map Prod.snd

/-- Python's `sep.join(xs)` on a list of strings. -/
def pyJoin (sep : String) : List String → String
  | [] => ""
  | [x] => x
  | x :: y :: rest => x ++ sep ++ pyJoin sep (y :: rest)

/-- Python's `s.startswith(pre)`: prefix test on the character sequence. -/
def pyStartswith (s pre : String) : Bool := pre.data.isPrefixOf s.data

/-- The embedding-input text derived in `compute_embeddings_with_azure_openai`
(src/app.py line 30): `" ".join(str(value) for value in metadata.values())`. -/
def embeddingInputText (metadata : Metadata) : String :=
  pyJoin " " ((dictValues metadata).map (fun value => pyStr value))

/-- The record persisted for one item, mirroring the `embeddings_data` dict
literal built in `upload_embeddings` (src/app.py lines 44-48): exactly the
three fields `file_name`, `embeddings`, `file_path`. Embedding vectors are
opaque numeric sequences; their element values are never inspected by the
pipeline, so components are modelled as `Int`. -/
structure EmbeddingsData where
  file_name : String
  embeddings : List Int
  file_path : PyVal
  deriving DecidableEq, Repr

/-- A JSON value appearing in the serialized output object. -/
inductive JVal where
  | str : String → JVal
  | num : Int → JVal
  | bool : Bool → JVal
  | null : JVal
  | arr : List JVal → JVal
  deriving Repr

/-- Scalar Python value to JSON value, as `json.dumps` serializes it. -/
def pyToJVal : PyVal → JVal
  | .str s => .str s
  | .int n => .num n
  | .bool b => .bool b
  | .none => .null

/-- The field list of the serialized output object (`json.dumps` of the
`embeddings_data` dict, src/app.py line 49): the dict literal's pairs in
source order. -/
def EmbeddingsData.toPairs (d : EmbeddingsData) : List (String × JVal) :=
  [("file_name", .str d.file_name),
   ("embeddings", .arr (d.embeddings.map JVal.num)),
   ("file_path", pyToJVal d.file_path)]

/-- The embeddings container's contents: blob name → stored record. -/
def Store := String → Option EmbeddingsData

/-- Oracles for the external collaborators seen by one item transformation.
Each failure value is the message string (`str(e)`) of the exception the
collaborator raised. -/
structure Env where
  /-- `read_blob_content` (download + decode) for a given blob name. -/
  readBlob : String → Except String String
  /-- `json.loads` restricted to "parses as a key-value mapping": a pure
  function of the raw content. Failure covers both JSON syntax errors and
  content that is not a mapping. -/
  parseJson : String → Except String Metadata
  /-- The Azure OpenAI embeddings call: input text → embedding vector. -/
  embed : String → Except String (List Int)
  /-- Whether `upload_blob` at a given blob name succeeds. -/
  writeOk : String → Except String Unit

/-- `compute_embeddings_with_azure_openai` (src/app.py lines 29-41):
derives the input text from the metadata values and invokes the
embeddings service. -/
def compute_embeddings_with_azure_openai (env : Env) (metadata : Metadata) :
    Except String (List Int) :=
  let text := embeddingInputText metadata
  env.embed text

/-- `upload_embeddings` (src/app.py lines 43-50): builds the three-field
`embeddings_data` record, serializes it and uploads it with
`overwrite=True` — the store maps the name to the new record, replacing
any prior object there. -/
def upload_embeddings (store : Store) (file_name : String)
    (embeddings : List Int) (file_path : PyVal) : Store :=
  let embeddings_data : EmbeddingsData :=
    { file_name := file_name, embeddings := embeddings, file_path := file_path }
  fun m => if m = file_name then some embeddings_data else store m

/-- The per-item outcome dict returned by `process_single_blob`
(src/app.py lines 61-63): `{"blob": ..., "status": ...}` on success,
`{"blob": ..., "status": ..., "error": ...}` on failure. The optional
`"error"` key is an `Option`. -/
structure Outcome where
  blob : String
  status : String
  error : Option String
  deriving DecidableEq, Repr

/-- `process_single_blob` (src/app.py lines 53-63): read → parse → derive
text and embed → write, with every exception caught and converted into a
`failed` outcome carrying `str(e)`. Returns the outcome together with the
embeddings container contents after this item's write (unchanged whenever
any step failed). -/
def process_single_blob (env : Env) (store : Store) (name : String) :
    Outcome × Store :=
  match env.readBlob name with
  | .error e => ({ blob := name, status := "failed", error := some e }, store)
  | .ok metadata_content =>
    match env.parseJson metadata_content with
    | .error e => ({ blob := name, status := "failed", error := some e }, store)
    | .ok metadata =>
      let file_path := dictGet metadata "file_path" (PyVal.str "unknown_path")
      match compute_embeddings_with_azure_openai env metadata with
      | .error e => ({ blob := name, status := "failed", error := some e }, store)
      | .ok embeddings =>
        match env.writeOk name with
        | .error e => ({ blob := name, status := "failed", error := some e }, store)
        | .ok _ =>
          ({ blob := name, status := "success", error := Option.none },
           upload_embeddings store name embeddings file_path)

/-- The outcome of transforming one item (first component of
`process_single_blob`; the outcome never depends on the store). -/
def transformOutcome (env : Env) (name : String) : Outcome :=
  (process_single_blob env (fun _ => Option.none) name).1

/-- The batch report built by `process_user_metadata_to_embeddings`
(src/app.py lines 90-93): `processed_files` holds identifiers of
successful items, `failed_files` holds `{blob, error}` pairs, both in
completion order. -/
structure BatchResult where
  processed_files : List String
  failed_files : List (String × String)
  deriving DecidableEq, Repr

/-- The aggregation loop over completed futures (src/app.py lines 83-88):
a `"success"` outcome appends its blob to `processed_files`; any other
outcome appends `{"blob": ..., "error": result["error"]}`. The dict access
`result["error"]` raises `KeyError` when the key is absent; that
possibility is the `Option.none` result. -/
def aggregate : List Outcome → Option BatchResult
  | [] => some { processed_files := [], failed_files := [] }
  | r :: rest =>
    if r.status = "success" then
      (aggregate rest).map
        (fun b => { b with processed_files := r.blob :: b.processed_files })
    else
      match r.error with
      | Option.none => Option.none
      | some e =>
        (aggregate rest).map
          (fun b => { b with failed_files := (r.blob, e) :: b.failed_files })

/-- Oracles for a whole batch request: the per-item oracles plus container
provisioning (`exists` / `create_container`, src/app.py lines 70-71) and
blob enumeration (`fetch_user_blobs`, src/app.py lines 21-23). -/
structure BatchEnv extends Env where
  /-- Outcome of the provisioning check/creation; an exception here is
  fatal to the request. -/
  provision : Except String Unit
  /-- `list(fetch_user_blobs(metadata_container_client, user_id))`:
  the enumerated blob names for a user; an exception here is fatal. -/
  listBlobs : String → Except String (List String)

/-- Executing every submitted job (src/app.py lines 78-82): one
`process_single_blob` invocation per enumerated blob, each producing one
outcome; writes of distinct jobs land in the shared embeddings store. -/
def runPool (env : Env) : Store → List String → List Outcome × Store
  | store, [] => ([], store)
  | store, j :: rest =>
    let r := process_single_blob env store j
    let rs := runPool env r.2 rest
    (r.1 :: rs.1, rs.2)

/-- `process_user_metadata_to_embeddings` (src/app.py lines 66-93):
provision the output container, enumerate the user's blobs, run every job
through the pool, and aggregate the outcomes as they complete.
`sched` models the arrival order of `as_completed`: an arbitrary
reordering of the outcome list (theorems hypothesize it is a
permutation; see `poolReachable_terminal_perm`). The error result carries
a fatal exception's message. -/
def process_user_metadata_to_embeddings (env : BatchEnv)
    (sched : List Outcome → List Outcome) (store : Store) (user_id : String) :
    Except String BatchResult × Store :=
  match env.provision with
  | .error e => (.error e, store)
  | .ok _ =>
    match env.listBlobs user_id with
    | .error e => (.error e, store)
    | .ok blobs =>
      let rs := runPool env.toEnv store blobs
      (match aggregate (sched rs.1) with
       | Option.none => .error "KeyError: 'error'"
       | some res => .ok res, rs.2)

/-- An HTTP response of the batch endpoint: `jsonify(...), code`. -/
inductive Resp where
  | ok (message : String) (result : BatchResult)
  | badRequest (error : String)
  | serverError (error : String)
  deriving DecidableEq, Repr

/-- The numeric HTTP status code of a response. -/
def Resp.statusCode : Resp → Nat
  | .ok _ _ => 200
  | .badRequest _ => 400
  | .serverError _ => 500

/-- The `/process_embeddings` endpoint (src/app.py lines 95-105):
`data.get('user_id')` is `Option.none` when absent; `if not user_id` also
rejects the falsy empty string. A fatal exception from the batch function
becomes a 500 response; otherwise the response is
`{"message": "Processing completed", "result": ...}, 200`. -/
def process_embeddings (env : BatchEnv) (sched : List Outcome → List Outcome)
    (store : Store) (user_id : Option String) : Resp × Store :=
  match user_id with
  | Option.none => (.badRequest "Missing user_id in request", store)
  | some uid =>
    if uid = "" then (.badRequest "Missing user_id in request", store)
    else
      match process_user_metadata_to_embeddings env sched store uid with
      | (.ok res, store2) => (.ok "Processing completed" res, store2)
      | (.error e, store2) => (.serverError e, store2)

/-- The name normalization of `/process_single_embedding`
(src/app.py lines 122-123): prepend `f"{user_id}/"` unless the raw name
already starts with it. -/
def normalizeBlobName (user_id blob_name : String) : String :=
  if pyStartswith blob_name (user_id ++ "/") then blob_name
  else user_id ++ "/" ++ blob_name

/-! ## Bounded worker pool as a step relation

`ThreadPoolExecutor(max_workers=5)` (src/app.py line 78) bounds the
number of concurrently executing submitted calls. The executor is
modelled as a state machine: a job may start only while fewer than
`max_workers` jobs are running, and a running job may complete, its
outcome becoming visible to the `as_completed` loop. -/

/-- The pool size fixed at src/app.py line 78: `max_workers=5`. -/
def max_workers : Nat := 5

/-- A worker-pool state: jobs not yet dispatched, jobs currently
executing (in flight), and completed outcomes in completion order. -/
structure PoolState where
  pending : List String
  running : List String
  done : List Outcome
  deriving Repr

/-- One scheduling transition of `ThreadPoolExecutor`: dispatch the next
pending job when a worker slot is free, or complete a running job. -/
inductive PoolStep (env : Env) (maxW : Nat) : PoolState → PoolState → Prop where
  | dispatch (j : String) (rest running : List String) (done : List Outcome) :
      running.length < maxW →
      PoolStep env maxW ⟨j :: rest, running, done⟩ ⟨rest, j :: running, done⟩
  | complete (pending running : List String) (done : List Outcome) (j : String) :
      j ∈ running →
      PoolStep env maxW ⟨pending, running, done⟩
        ⟨pending, running.erase j, done ++ [transformOutcome env j]⟩

/-- States the pool can reach from the submission of a job list onto an
idle pool. -/
def PoolReachable (env : Env) (maxW : Nat) (jobs : List String)
    (s : PoolState) : Prop :=
  Relation.ReflTransGen (PoolStep env maxW) ⟨jobs, [], []⟩ s

/-- The four per-item error kinds of spec §7. -/
inductive ErrKind where
  | ReadError
  | ParseError
  | EmbeddingServiceError
  | WriteError
  deriving DecidableEq, Repr

/-- Follows the spec's words (§4.3, §7), for comparison against the code:
the classification of the first failing transformer step — read →
`ReadError`, parse → `ParseError`, embedding-service call →
`EmbeddingServiceError`, write → `WriteError`; `Option.none` when every
step succeeds. -/
def specFailKind (env : Env) (name : String) : Option ErrKind :=
  match env.readBlob name with
  | .error _ => some .ReadError
  | .ok c =>
    match env.parseJson c with
    | .error _ => some .ParseError
    | .ok md =>
      match compute_embeddings_with_azure_openai env md with
      | .error _ => some .EmbeddingServiceError
      | .ok _ =>
        match env.writeOk name with
        | .error _ => some .WriteError
        | .ok _ => Option.none

/-- An empty embeddings container. -/
def storeEmpty : Store := fun _ => Option.none

/-- A container already holding a record under every name (used to
exercise overwrite semantics). -/
def storeW : Store := fun _ => some ⟨"old", [0], PyVal.str "old_path"⟩

/-- Concrete oracles where every read fails. -/
def envAllFail : Env :=
  { readBlob := fun _ => .error "boom"
    parseJson := fun _ => .error "bad json"
    embed := fun _ => .error "rate limited"
    writeOk := fun _ => .ok () }

/-- Concrete oracles where every step succeeds. -/
def envOk : Env :=
  { readBlob := fun _ => .ok "raw"
    parseJson := fun c => .ok [("file_path", PyVal.str "docs/a.txt"), ("title", PyVal.str c)]
    embed := fun _ => .ok [1, 2, 3]
    writeOk := fun _ => .ok () }

/-- Concrete oracles where reading succeeds but parsing fails. -/
def envParseFail : Env :=
  { readBlob := fun _ => .ok "not json"
    parseJson := fun _ => .error "Expecting value: line 1 column 1 (char 0)"
    embed := fun _ => .ok [1]
    writeOk := fun _ => .ok () }

/-- Concrete oracles where exactly one blob fails to read. -/
def envMixed : Env :=
  { readBlob := fun name => if name = "u1/bad.json" then .error "boom" else .ok "raw"
    parseJson := fun c => .ok [("file_path", PyVal.str "p"), ("t", PyVal.str c)]
    embed := fun _ => .ok [7]
    writeOk := fun _ => .ok () }

/-- A concrete batch environment over `envMixed` with two enumerated
blobs, one of which fails. -/
def batchEnvMixed : BatchEnv :=
  { toEnv := envMixed
    provision := .ok ()
    listBlobs := fun _ => .ok ["u1/good.json", "u1/bad.json"] }

/-- A concrete batch environment over `envAllFail`: enumeration succeeds
but every individual item fails. -/
def batchEnvAllFail : BatchEnv :=
  { toEnv := envAllFail
    provision := .ok ()
    listBlobs := fun _ => .ok ["u1/a.json", "u1/b.json"] }

/-- The shape of the outcome dicts the aggregation loop relies on: either
status `"success"`, or the `"error"` key present. -/
def Outcome.wf (o : Outcome) : Prop := o.status = "success" ∨ o.error.isSome

/-- What the aggregation loop computes when no outcome triggers the
`KeyError` (the total refinement of `aggregate`). -/
def aggregateTotal : List Outcome → BatchResult
  | [] => { processed_files := [], failed_files := [] }
  | r :: rest =>
    let b := aggregateTotal rest
    if r.status = "success" then
      { b with processed_files := r.blob :: b.processed_files }
    else
      { b with failed_files := (r.blob, (r.error).getD "") :: b.failed_files }

/-! ## Per-item outcome lemmas -/

theorem transformOutcome_eq (env : Env) (store : Store) (name : String) :
    (process_single_blob env store name).1 = transformOutcome env name := by
  unfold transformOutcome process_single_blob
  cases env.readBlob name with
  | error e => rfl
  | ok c =>
    simp only
    cases env.parseJson c with
    | error e => rfl
    | ok md =>
      simp only
      cases compute_embeddings_with_azure_openai env md with
      | error e => rfl
      | ok v =>
        simp only
        cases env.writeOk name with
        | error e => rfl
        | ok u => rfl

theorem transformOutcome_read_error (env : Env) (name e : String)
    (h : env.readBlob name = .error e) :
    transformOutcome env name = ⟨name, "failed", some e⟩ := by
  unfold transformOutcome process_single_blob
  rw [h]

theorem transformOutcome_parse_error (env : Env) (name c e : String)
    (hr : env.readBlob name = .ok c) (hp : env.parseJson c = .error e) :
    transformOutcome env name = ⟨name, "failed", some e⟩ := by
  unfold transformOutcome process_single_blob
  rw [hr]
  simp only
  rw [hp]

theorem transformOutcome_embed_error (env : Env) (name c e : String)
    (md : Metadata) (hr : env.readBlob name = .ok c)
    (hp : env.parseJson c = .ok md)
    (he : env.embed (embeddingInputText md) = .error e) :
    transformOutcome env name = ⟨name, "failed", some e⟩ := by
  unfold transformOutcome process_single_blob compute_embeddings_with_azure_openai
  rw [hr]
  simp only
  rw [hp]
  simp only
  rw [he]

theorem transformOutcome_write_error (env : Env) (name c e : String)
    (md : Metadata) (v : List Int) (hr : env.readBlob name = .ok c)
    (hp : env.parseJson c = .ok md)
    (he : env.embed (embeddingInputText md) = .ok v)
    (hw : env.writeOk name = .error e) :
    transformOutcome env name = ⟨name, "failed", some e⟩ := by
  unfold transformOutcome process_single_blob compute_embeddings_with_azure_openai
  rw [hr]
  simp only
  rw [hp]
  simp only
  rw [he]
  simp only
  rw [hw]

theorem process_single_blob_success (env : Env) (store : Store)
    (name c : String) (md : Metadata) (v : List Int)
    (hr : env.readBlob name = .ok c) (hp : env.parseJson c = .ok md)
    (he : env.embed (embeddingInputText md) = .ok v)
    (hw : env.writeOk name = .ok ()) :
    process_single_blob env store name =
      (⟨name, "success", Option.none⟩,
       upload_embeddings store name v
         (dictGet md "file_path" (PyVal.str "unknown_path"))) := by
  unfold process_single_blob compute_embeddings_with_azure_openai
  rw [hr]
  simp only
  rw [hp]
  simp only
  rw [he]
  simp only
  rw [hw]

theorem transformOutcome_shape (env : Env) (name : String) :
    (transformOutcome env name).blob = name ∧
    ((transformOutcome env name).status = "success" ∧
        (transformOutcome env name).error = Option.none ∨
      (transformOutcome env name).status = "failed" ∧
        ∃ e, (transformOutcome env name).error = some e) := by
  unfold transformOutcome process_single_blob
  cases h1 : env.readBlob name with
  | error e => exact ⟨rfl, Or.inr ⟨rfl, e, rfl⟩⟩
  | ok c =>
    simp only
    cases h2 : env.parseJson c with
    | error e => exact ⟨rfl, Or.inr ⟨rfl, e, rfl⟩⟩
    | ok md =>
      simp only
      cases h3 : compute_embeddings_with_azure_openai env md with
      | error e => exact ⟨rfl, Or.inr ⟨rfl, e, rfl⟩⟩
      | ok v =>
        simp only
        cases h4 : env.writeOk name with
        | error e => exact ⟨rfl, Or.inr ⟨rfl, e, rfl⟩⟩
        | ok u => exact ⟨rfl, Or.inl ⟨rfl, rfl⟩⟩

theorem transformOutcome_blob (env : Env) (name : String) :
    (transformOutcome env name).blob = name :=
  (transformOutcome_shape env name).1

theorem map_blob_map_transform (env : Env) (jobs : List String) :
    (jobs.map (transformOutcome env)).map Outcome.blob = jobs := by
  induction jobs with
  | nil => rfl
  | cons j rest ih => simp [transformOutcome_blob, ih]

theorem runPool_fst (env : Env) (store : Store) (jobs : List String) :
    (runPool env store jobs).1 = jobs.map (transformOutcome env) := by
  induction jobs generalizing store with
  | nil => rfl
  | cons j rest ih => simp [runPool, transformOutcome_eq, ih]

/-! ## Aggregation lemmas -/

theorem transformOutcome_wf (env : Env) (name : String) :
    (transformOutcome env name).wf := by
  rcases (transformOutcome_shape env name).2 with ⟨hs, _⟩ | ⟨hs, e, he⟩
  · exact Or.inl hs
  · exact Or.inr (by simp [he])

theorem aggregate_eq_total (outs : List Outcome) (h : ∀ o ∈ outs, o.wf) :
    aggregate outs = some (aggregateTotal outs) := by
  induction outs with
  | nil => rfl
  | cons r rest ih =>
    have hr := h r (List.mem_cons_self r rest)
    have hrest : ∀ o ∈ rest, o.wf := fun o ho => h o (List.mem_cons_of_mem r ho)
    unfold aggregate aggregateTotal
    by_cases hs : r.status = "success"
    · simp [hs, ih hrest]
    · rcases hr with hr | hr
      · exact absurd hr hs
      · obtain ⟨e, he⟩ := Option.isSome_iff_exists.mp hr
        simp [hs, he, ih hrest]

theorem aggregateTotal_length (outs : List Outcome) :
    (aggregateTotal outs).processed_files.length +
      (aggregateTotal outs).failed_files.length = outs.length := by
  induction outs with
  | nil => rfl
  | cons r rest ih =>
    unfold aggregateTotal
    by_cases hs : r.status = "success" <;> simp [hs] <;> omega

theorem aggregateTotal_count (outs : List Outcome) (name : String) :
    (aggregateTotal outs).processed_files.count name +
      ((aggregateTotal outs).failed_files.map Prod.fst).count name =
      (outs.map Outcome.blob).count name := by
  induction outs with
  | nil => rfl
  | cons r rest ih =>
    unfold aggregateTotal
    by_cases hs : r.status = "success" <;>
      by_cases hb : r.blob = name <;>
        simp [hs, hb, List.count_cons] <;> omega

/-! ## String join lemmas -/

theorem pyJoin_eq_intercalate (s : String) (l : List String) :
    pyJoin s l = String.intercalate s l := by
  cases l with
  | nil => rfl
  | cons a as =>
    show pyJoin s (a :: as) = String.intercalate.go a s as
    induction as generalizing a with
    | nil => rfl
    | cons b bs ih =>
      show a ++ s ++ pyJoin s (b :: bs) = String.intercalate.go (a ++ s ++ b) s bs
      rw [← ih (a ++ s ++ b)]
      cases bs with
      | nil => rfl
      | cons c cs =>
        show a ++ s ++ (b ++ s ++ pyJoin s (c :: cs)) =
          a ++ s ++ b ++ s ++ pyJoin s (c :: cs)
        simp [String.append_assoc]

/-! ## Worker pool lemmas -/

theorem poolStep_running_le (env : Env) (maxW : Nat) {s t : PoolState}
    (hstep : PoolStep env maxW s t) (hs : s.running.length ≤ maxW) :
    t.running.length ≤ maxW := by
  cases hstep with
  | dispatch j rest running done hlt => simpa using hlt
  | complete pending running done j hj =>
    exact le_trans (List.Sublist.length_le (List.erase_sublist j running)) hs

theorem poolReachable_running_le (env : Env) (maxW : Nat) (jobs : List String)
    (s : PoolState) (h : PoolReachable env maxW jobs s) :
    s.running.length ≤ maxW := by
  induction h with
  | refl => simp
  | tail hr hstep ih => exact poolStep_running_le env maxW hstep ih

/-- Every step preserves the multiset of job outcomes distributed over
pending, running and done. -/
theorem poolStep_perm (env : Env) (maxW : Nat) {s t : PoolState}
    (hstep : PoolStep env maxW s t) :
    (t.pending.map (transformOutcome env) ++
      t.running.map (transformOutcome env) ++ t.done).Perm
    (s.pending.map (transformOutcome env) ++
      s.running.map (transformOutcome env) ++ s.done) := by
  cases hstep with
  | dispatch j rest running done hlt =>
    simp only [List.map_cons, List.cons_append]
    exact List.perm_middle.append_right done
  | complete pending running done j hj =>
    simp only
    have h2 : (running.map (transformOutcome env)).Perm
        (transformOutcome env j ::
          (running.erase j).map (transformOutcome env)) := by
      simpa using (List.perm_cons_erase hj).map (transformOutcome env)
    have step1 : ((running.erase j).map (transformOutcome env) ++ done ++
        [transformOutcome env j]).Perm
        (transformOutcome env j ::
          ((running.erase j).map (transformOutcome env) ++ done)) :=
      List.perm_append_singleton _ _
    have step2 : (transformOutcome env j ::
        ((running.erase j).map (transformOutcome env) ++ done)).Perm
        (running.map (transformOutcome env) ++ done) := by
      simpa [List.cons_append] using h2.symm.append_right done
    simpa [List.append_assoc] using
      List.Perm.append_left (pending.map (transformOutcome env))
        (step1.trans step2)

/-- When the pool drains (no pending, no running job), the completed
outcomes are a permutation of one outcome per submitted job: the
`as_completed` loop observes exactly the per-job outcomes, reordered. -/
theorem poolReachable_terminal_perm (env : Env) (maxW : Nat)
    (jobs : List String) (s : PoolState) (h : PoolReachable env maxW jobs s)
    (hp : s.pending = []) (hr : s.running = []) :
    s.done.Perm (jobs.map (transformOutcome env)) := by
  have key : ∀ t : PoolState, PoolReachable env maxW jobs t →
      (t.pending.map (transformOutcome env) ++
        t.running.map (transformOutcome env) ++ t.done).Perm
      (jobs.map (transformOutcome env)) := by
    intro t ht
    induction ht with
    | refl => simp
    | tail hr' hstep ih => exact (poolStep_perm env maxW hstep).trans ih
  have := key s h
  rw [hp, hr] at this
  simpa using this

/-! ## Claim theorems -/

/-- C7: for every parsed metadata mapping, the embedding input text is
exactly the concatenation of the string form of every value in the
mapping, in the mapping's iteration order, with single spaces as
separators; keys are not included. -/
theorem embedding_text_is_space_joined_value_strings (metadata : Metadata) :
    embeddingInputText metadata =
      String.intercalate " " (metadata.map (fun kv => pyStr kv.2)) := by
  unfold embeddingInputText dictValues
  rw [pyJoin_eq_intercalate]
  simp only [List.map_map]
  rfl

/-- C10: the derived embedding input text is a deterministic function of
the parsed mapping — any two mappings whose value sequences agree (in
particular, equal mappings with the same keys and values in the same
insertion order) yield identical text. -/
theorem embedding_text_deterministic (m1 m2 : Metadata)
    (h : m1.map Prod.snd = m2.map Prod.snd) :
    embeddingInputText m1 = embeddingInputText m2 := by
  unfold embeddingInputText dictValues
  rw [h]

theorem embedding_text_deterministic_witness :
    ([("a", PyVal.str "x")] : Metadata).map Prod.snd =
      ([("k", PyVal.str "x")] : Metadata).map Prod.snd ∧
    embeddingInputText [("a", PyVal.str "x")] =
      embeddingInputText [("k", PyVal.str "x")] :=
  ⟨by decide, embedding_text_deterministic _ _ (by decide)⟩

/-- C8: single-item name normalization prefixes `blob_name` with
`"{user_id}/"` exactly when the prefix is not already present; on the
spec's concrete examples it yields `"u1/report.json"` in both cases, and
normalization is idempotent (no double-prefixing). -/
theorem normalize_prefixes_exactly_when_absent :
    (∀ u b : String,
      (pyStartswith b (u ++ "/") = true → normalizeBlobName u b = b) ∧
      (pyStartswith b (u ++ "/") = false →
        normalizeBlobName u b = u ++ "/" ++ b)) ∧
    normalizeBlobName "u1" "report.json" = "u1/report.json" ∧
    normalizeBlobName "u1" "u1/report.json" = "u1/report.json" ∧
    (∀ u b : String,
      normalizeBlobName u (normalizeBlobName u b) = normalizeBlobName u b) := by
  refine ⟨fun u b => ⟨fun h => ?_, fun h => ?_⟩, by decide, by decide, fun u b => ?_⟩
  · simp [normalizeBlobName, h]
  · simp [normalizeBlobName, h]
  · by_cases h : pyStartswith b (u ++ "/") = true
    · simp [normalizeBlobName, h]
    · have h2 : pyStartswith (u ++ "/" ++ b) (u ++ "/") = true := by
        unfold pyStartswith
        rw [List.isPrefixOf_iff_prefix, String.data_append]
        exact List.prefix_append _ _
      simp [normalizeBlobName, h, h2]

theorem normalize_prefixes_exactly_when_absent_witness :
    pyStartswith "u1/report.json" ("u1" ++ "/") = true ∧
    normalizeBlobName "u1" "u1/report.json" = "u1/report.json" :=
  ⟨by decide,
   (normalize_prefixes_exactly_when_absent.1 "u1" "u1/report.json").1 (by decide)⟩

/-- C2: the item transformer always returns an outcome value — success or
failure tagged with the input identifier and, on failure, the error
detail — and one item's result is a function only of that item's oracles
(other jobs' failures, and any state of the output store, cannot change
it). -/
theorem item_transformer_total_and_isolated (env env' : Env)
    (store store' : Store) (name : String) :
    ((process_single_blob env store name).1.blob = name ∧
      ((process_single_blob env store name).1.status = "success" ∧
          (process_single_blob env store name).1.error = Option.none ∨
        (process_single_blob env store name).1.status = "failed" ∧
          ∃ e, (process_single_blob env store name).1.error = some e)) ∧
    (env.readBlob name = env'.readBlob name →
      (∀ c, env.parseJson c = env'.parseJson c) →
      (∀ t, env.embed t = env'.embed t) →
      env.writeOk name = env'.writeOk name →
      (process_single_blob env store name).1 =
        (process_single_blob env' store' name).1) := by
  constructor
  · rw [transformOutcome_eq]
    exact transformOutcome_shape env name
  · intro h1 h2 h3 h4
    rw [transformOutcome_eq, transformOutcome_eq]
    cases hr : env.readBlob name with
    | error e =>
      rw [transformOutcome_read_error env name e hr,
        transformOutcome_read_error env' name e (h1.symm.trans hr)]
    | ok c =>
      cases hp : env.parseJson c with
      | error e =>
        rw [transformOutcome_parse_error env name c e hr hp,
          transformOutcome_parse_error env' name c e (h1.symm.trans hr)
            ((h2 c).symm.trans hp)]
      | ok md =>
        cases he : env.embed (embeddingInputText md) with
        | error e =>
          rw [transformOutcome_embed_error env name c e md hr hp he,
            transformOutcome_embed_error env' name c e md (h1.symm.trans hr)
              ((h2 c).symm.trans hp) ((h3 _).symm.trans he)]
        | ok v =>
          cases hw : env.writeOk name with
          | error e =>
            rw [transformOutcome_write_error env name c e md v hr hp he hw,
              transformOutcome_write_error env' name c e md v (h1.symm.trans hr)
                ((h2 c).symm.trans hp) ((h3 _).symm.trans he)
                (h4.symm.trans hw)]
          | ok u =>
            unfold transformOutcome
            rw [process_single_blob_success env _ name c md v hr hp he hw,
              process_single_blob_success env' _ name c md v (h1.symm.trans hr)
                ((h2 c).symm.trans hp) ((h3 _).symm.trans he)
                (h4.symm.trans hw)]

theorem item_transformer_total_and_isolated_witness :
    (process_single_blob envAllFail storeEmpty "u1/a.json").1.blob =
      "u1/a.json" ∧
    (process_single_blob envAllFail storeEmpty "u1/a.json").1 =
      (process_single_blob envAllFail storeW "u1/a.json").1 :=
  ⟨(item_transformer_total_and_isolated envAllFail envAllFail storeEmpty
      storeW "u1/a.json").1.1,
   (item_transformer_total_and_isolated envAllFail envAllFail storeEmpty
      storeW "u1/a.json").2 rfl (fun _ => rfl) (fun _ => rfl) rfl⟩

/-- C3: a failure at each of the four transformer steps is converted into
a failed outcome carrying that step's error detail, and the failing step
is classified by a distinct error kind (`ReadError`, `ParseError`,
`EmbeddingServiceError`, `WriteError`); in particular a parse failure
yields kind `ParseError`. -/
theorem step_failures_map_to_distinct_kinds (env : Env) (name : String) :
    ((transformOutcome env name).status = "failed" ↔
      (specFailKind env name).isSome) ∧
    (∀ e, env.readBlob name = .error e →
      specFailKind env name = some .ReadError ∧
        transformOutcome env name = ⟨name, "failed", some e⟩) ∧
    (∀ c e, env.readBlob name = .ok c → env.parseJson c = .error e →
      specFailKind env name = some .ParseError ∧
        transformOutcome env name = ⟨name, "failed", some e⟩) ∧
    (∀ c md e, env.readBlob name = .ok c → env.parseJson c = .ok md →
      env.embed (embeddingInputText md) = .error e →
      specFailKind env name = some .EmbeddingServiceError ∧
        transformOutcome env name = ⟨name, "failed", some e⟩) ∧
    (∀ c md v e, env.readBlob name = .ok c → env.parseJson c = .ok md →
      env.embed (embeddingInputText md) = .ok v →
      env.writeOk name = .error e →
      specFailKind env name = some .WriteError ∧
        transformOutcome env name = ⟨name, "failed", some e⟩) := by
  refine ⟨?_, ?_, ?_, ?_, ?_⟩
  · unfold transformOutcome process_single_blob specFailKind
    cases h1 : env.readBlob name with
    | error e => simp
    | ok c =>
      simp only
      cases h2 : env.parseJson c with
      | error e => simp
      | ok md =>
        simp only
        cases h3 : compute_embeddings_with_azure_openai env md with
        | error e => simp
        | ok v =>
          simp only
          cases h4 : env.writeOk name with
          | error e => simp
          | ok u => simp
  · intro e hr
    refine ⟨?_, transformOutcome_read_error env name e hr⟩
    unfold specFailKind
    rw [hr]
  · intro c e hr hp
    refine ⟨?_, transformOutcome_parse_error env name c e hr hp⟩
    unfold specFailKind
    rw [hr]
    simp only
    rw [hp]
  · intro c md e hr hp he
    refine ⟨?_, transformOutcome_embed_error env name c e md hr hp he⟩
    unfold specFailKind compute_embeddings_with_azure_openai
    rw [hr]
    simp only
    rw [hp]
    simp only
    rw [he]
  · intro c md v e hr hp he hw
    refine ⟨?_, transformOutcome_write_error env name c e md v hr hp he hw⟩
    unfold specFailKind compute_embeddings_with_azure_openai
    rw [hr]
    simp only
    rw [hp]
    simp only
    rw [he]
    simp only
    rw [hw]

theorem step_failures_map_to_distinct_kinds_witness :
    envParseFail.readBlob "u1/a.json" = .ok "not json" ∧
    envParseFail.parseJson "not json" =
      .error "Expecting value: line 1 column 1 (char 0)" ∧
    (specFailKind envParseFail "u1/a.json" = some .ParseError ∧
      transformOutcome envParseFail "u1/a.json" =
        ⟨"u1/a.json", "failed",
          some "Expecting value: line 1 column 1 (char 0)"⟩) :=
  ⟨rfl, rfl,
   (step_failures_map_to_distinct_kinds envParseFail "u1/a.json").2.2.1
     "not json" "Expecting value: line 1 column 1 (char 0)" rfl rfl⟩

/-- C9: a failed outcome always carries the `"error"` key, a success
outcome never does, and therefore the aggregation loop's
`result["error"]` lookup cannot raise: `aggregate` succeeds on any
arrival order of the pool's outcomes. -/
theorem failed_outcomes_carry_error_key (env : Env) (store : Store)
    (name : String) :
    ((process_single_blob env store name).1.status = "failed" →
      ∃ e, (process_single_blob env store name).1.error = some e) ∧
    ((process_single_blob env store name).1.status = "success" →
      (process_single_blob env store name).1.error = Option.none) ∧
    (∀ (jobs : List String) (outs : List Outcome),
      outs.Perm ((runPool env store jobs).1) → (aggregate outs).isSome) := by
  refine ⟨?_, ?_, ?_⟩
  · intro hf
    rw [transformOutcome_eq] at hf ⊢
    rcases (transformOutcome_shape env name).2 with ⟨hs, _⟩ | ⟨_, e, he⟩
    · exact absurd (hs.symm.trans hf) (by decide)
    · exact ⟨e, he⟩
  · intro hs
    rw [transformOutcome_eq] at hs ⊢
    rcases (transformOutcome_shape env name).2 with ⟨_, he⟩ | ⟨hf, _, _⟩
    · exact he
    · exact absurd (hf.symm.trans hs) (by decide)
  · intro jobs outs hperm
    rw [runPool_fst] at hperm
    have hwf : ∀ o ∈ outs, o.wf := by
      intro o ho
      obtain ⟨j, _, rfl⟩ := List.mem_map.mp (hperm.mem_iff.mp ho)
      exact transformOutcome_wf env j
    rw [aggregate_eq_total outs hwf]
    rfl

theorem failed_outcomes_carry_error_key_witness :
    (process_single_blob envAllFail storeEmpty "u1/a.json").1.status =
      "failed" ∧
    (∃ e, (process_single_blob envAllFail storeEmpty "u1/a.json").1.error =
      some e) ∧
    (aggregate ((runPool envAllFail storeEmpty ["u1/a.json"]).1)).isSome :=
  ⟨rfl,
   (failed_outcomes_carry_error_key envAllFail storeEmpty "u1/a.json").1 rfl,
   (failed_outcomes_carry_error_key envAllFail storeEmpty "u1/a.json").2.2
     ["u1/a.json"] _ (List.Perm.refl _)⟩

/-- C6: a successfully transformed item writes, at its own identifier, a
record with exactly the three fields `file_name` (the identifier),
`embeddings` (the computed vector) and `file_path` (from the parsed
record, or `"unknown_path"` when absent); the write touches no other
identifier and replaces whatever was previously stored at that
identifier. -/
theorem output_record_fields_and_overwrite (env : Env) (store : Store)
    (name c : String) (md : Metadata) (v : List Int)
    (hr : env.readBlob name = .ok c) (hp : env.parseJson c = .ok md)
    (he : env.embed (embeddingInputText md) = .ok v)
    (hw : env.writeOk name = .ok ()) :
    (process_single_blob env store name).2 name =
      some { file_name := name, embeddings := v,
             file_path := dictGet md "file_path" (PyVal.str "unknown_path") } ∧
    (∀ d : EmbeddingsData,
      d.toPairs.map Prod.fst = ["file_name", "embeddings", "file_path"]) ∧
    (∀ m, m ≠ name → (process_single_blob env store name).2 m = store m) ∧
    (∀ store2 : Store,
      (process_single_blob env store2 name).2 name =
        (process_single_blob env store name).2 name) := by
  refine ⟨?_, fun d => rfl, ?_, ?_⟩
  · rw [process_single_blob_success env store name c md v hr hp he hw]
    simp [upload_embeddings]
  · intro m hm
    rw [process_single_blob_success env store name c md v hr hp he hw]
    simp [upload_embeddings, hm]
  · intro store2
    rw [process_single_blob_success env store name c md v hr hp he hw,
      process_single_blob_success env store2 name c md v hr hp he hw]
    simp [upload_embeddings]

theorem output_record_fields_and_overwrite_witness :
    (process_single_blob envOk storeW "u1/a.json").2 "u1/a.json" =
      some { file_name := "u1/a.json", embeddings := [1, 2, 3],
             file_path := PyVal.str "docs/a.txt" } :=
  (output_record_fields_and_overwrite envOk storeW "u1/a.json" "raw"
    [("file_path", PyVal.str "docs/a.txt"), ("title", PyVal.str "raw")]
    [1, 2, 3] rfl rfl rfl rfl).1

theorem process_user_fst (env : BatchEnv) (sched : List Outcome → List Outcome)
    (store : Store) (uid : String) (blobs : List String)
    (hprov : env.provision = .ok ()) (henum : env.listBlobs uid = .ok blobs) :
    (process_user_metadata_to_embeddings env sched store uid).1 =
      match aggregate (sched (blobs.map (transformOutcome env.toEnv))) with
      | Option.none => Except.error "KeyError: 'error'"
      | some res => Except.ok res := by
  unfold process_user_metadata_to_embeddings
  rw [hprov]
  simp only
  rw [henum]
  simp only [runPool_fst]

/-- C1: whenever provisioning and enumeration succeed, the batch result
partitions the enumerated jobs: the processed and failed collections
together have exactly one entry per job, each identifier's multiplicity
is preserved, and for distinct identifiers each appears in exactly one of
the two collections. -/
theorem batch_result_partitions_enumerated_jobs (env : BatchEnv)
    (sched : List Outcome → List Outcome) (store : Store) (user_id : String)
    (blobs : List String)
    (hsched : ∀ l, (sched l).Perm l)
    (hprov : env.provision = .ok ())
    (henum : env.listBlobs user_id = .ok blobs) :
    ∃ res : BatchResult,
      (process_user_metadata_to_embeddings env sched store user_id).1 =
        Except.ok res ∧
      res.processed_files.length + res.failed_files.length = blobs.length ∧
      (∀ name, res.processed_files.count name +
        (res.failed_files.map Prod.fst).count name = blobs.count name) ∧
      (blobs.Nodup → ∀ name ∈ blobs,
        (name ∈ res.processed_files ∧ name ∉ res.failed_files.map Prod.fst) ∨
        (name ∉ res.processed_files ∧ name ∈ res.failed_files.map Prod.fst)) := by
  have hperm : (sched (blobs.map (transformOutcome env.toEnv))).Perm
      (blobs.map (transformOutcome env.toEnv)) := hsched _
  have hwf : ∀ o ∈ sched (blobs.map (transformOutcome env.toEnv)), o.wf := by
    intro o ho
    obtain ⟨j, _, rfl⟩ := List.mem_map.mp (hperm.mem_iff.mp ho)
    exact transformOutcome_wf env.toEnv j
  have hagg := aggregate_eq_total _ hwf
  have hcnt : ∀ name,
      (aggregateTotal (sched (blobs.map (transformOutcome env.toEnv)))).processed_files.count name +
      ((aggregateTotal (sched (blobs.map (transformOutcome env.toEnv)))).failed_files.map Prod.fst).count name =
      blobs.count name := by
    intro name
    rw [aggregateTotal_count]
    have h2 := (hperm.map Outcome.blob).count_eq name
    rw [map_blob_map_transform] at h2
    exact h2
  refine ⟨aggregateTotal (sched (blobs.map (transformOutcome env.toEnv))),
    ?_, ?_, hcnt, ?_⟩
  · rw [process_user_fst env sched store user_id blobs hprov henum, hagg]
  · rw [aggregateTotal_length, hperm.length_eq, List.length_map]
  · intro hnd name hmem
    have h1 : blobs.count name = 1 := List.count_eq_one_of_mem hnd hmem
    have h2 := hcnt name
    rw [h1] at h2
    by_cases hmp : name ∈ (aggregateTotal (sched (blobs.map (transformOutcome env.toEnv)))).processed_files
    · left
      refine ⟨hmp, ?_⟩
      have hp1 : 0 < (aggregateTotal (sched (blobs.map (transformOutcome env.toEnv)))).processed_files.count name :=
        List.count_pos_iff.mpr hmp
      have hf0 : ((aggregateTotal (sched (blobs.map (transformOutcome env.toEnv)))).failed_files.map Prod.fst).count name = 0 := by
        omega
      exact List.count_eq_zero.mp hf0
    · right
      refine ⟨hmp, ?_⟩
      have hp0 : (aggregateTotal (sched (blobs.map (transformOutcome env.toEnv)))).processed_files.count name = 0 :=
        List.count_eq_zero.mpr hmp
      have hf1 : 0 < ((aggregateTotal (sched (blobs.map (transformOutcome env.toEnv)))).failed_files.map Prod.fst).count name := by
        omega
      exact List.count_pos_iff.mp hf1

theorem batch_result_partitions_enumerated_jobs_witness :
    (∀ l : List Outcome, (id l).Perm l) ∧
    batchEnvMixed.provision = .ok () ∧
    batchEnvMixed.listBlobs "u1" = .ok ["u1/good.json", "u1/bad.json"] ∧
    ∃ res : BatchResult,
      (process_user_metadata_to_embeddings batchEnvMixed id storeEmpty "u1").1 =
        Except.ok res ∧
      res.processed_files.length + res.failed_files.length =
        (["u1/good.json", "u1/bad.json"] : List String).length ∧
      (∀ name, res.processed_files.count name +
        (res.failed_files.map Prod.fst).count name =
          (["u1/good.json", "u1/bad.json"] : List String).count name) ∧
      ((["u1/good.json", "u1/bad.json"] : List String).Nodup →
        ∀ name ∈ (["u1/good.json", "u1/bad.json"] : List String),
        (name ∈ res.processed_files ∧ name ∉ res.failed_files.map Prod.fst) ∨
        (name ∉ res.processed_files ∧ name ∈ res.failed_files.map Prod.fst)) :=
  ⟨fun l => List.Perm.refl l, rfl, rfl,
   batch_result_partitions_enumerated_jobs batchEnvMixed id storeEmpty "u1"
     ["u1/good.json", "u1/bad.json"] (fun l => List.Perm.refl l) rfl rfl⟩

/-- C5: whenever provisioning and enumeration succeed (and `user_id` is
present and non-empty), the batch request returns the success response —
status 200 with message `"Processing completed"` — for every possible
combination of per-item outcomes, including every item failing; item
failures surface only inside the result's `failed_files`. -/
theorem batch_request_succeeds_despite_item_failures (env : BatchEnv)
    (sched : List Outcome → List Outcome) (store : Store) (uid : String)
    (blobs : List String)
    (hsched : ∀ l, (sched l).Perm l)
    (huid : ¬ uid = "")
    (hprov : env.provision = .ok ())
    (henum : env.listBlobs uid = .ok blobs) :
    ∃ (res : BatchResult) (store2 : Store),
      process_embeddings env sched store (some uid) =
        (Resp.ok "Processing completed" res, store2) ∧
      (Resp.ok "Processing completed" res).statusCode = 200 := by
  have hperm : (sched (blobs.map (transformOutcome env.toEnv))).Perm
      (blobs.map (transformOutcome env.toEnv)) := hsched _
  have hwf : ∀ o ∈ sched (blobs.map (transformOutcome env.toEnv)), o.wf := by
    intro o ho
    obtain ⟨j, _, rfl⟩ := List.mem_map.mp (hperm.mem_iff.mp ho)
    exact transformOutcome_wf env.toEnv j
  have hfst := process_user_fst env sched store uid blobs hprov henum
  rw [aggregate_eq_total _ hwf] at hfst
  simp only at hfst
  have hpair : process_user_metadata_to_embeddings env sched store uid =
      (Except.ok (aggregateTotal (sched (blobs.map (transformOutcome env.toEnv)))),
       (process_user_metadata_to_embeddings env sched store uid).2) := by
    rw [← hfst]
  refine ⟨aggregateTotal (sched (blobs.map (transformOutcome env.toEnv))),
    (process_user_metadata_to_embeddings env sched store uid).2, ?_, rfl⟩
  unfold process_embeddings
  simp only
  rw [if_neg huid, hpair]

theorem batch_request_succeeds_despite_item_failures_witness :
    (∀ l : List Outcome, (id l).Perm l) ∧
    ¬ ("u1" : String) = "" ∧
    batchEnvAllFail.provision = .ok () ∧
    batchEnvAllFail.listBlobs "u1" = .ok ["u1/a.json", "u1/b.json"] ∧
    ∃ (res : BatchResult) (store2 : Store),
      process_embeddings batchEnvAllFail id storeEmpty (some "u1") =
        (Resp.ok "Processing completed" res, store2) ∧
      (Resp.ok "Processing completed" res).statusCode = 200 :=
  ⟨fun l => List.Perm.refl l, by decide, rfl, rfl,
   batch_request_succeeds_despite_item_failures batchEnvAllFail id storeEmpty
     "u1" ["u1/a.json", "u1/b.json"] (fun l => List.Perm.refl l) (by decide)
     rfl rfl⟩

/-- C4: in every state the worker pool can reach, at most 5 item
transformer invocations are in flight, for every job list — the limit is
the fixed `max_workers=5`, independent of job-list size. -/
theorem pool_inflight_at_most_five (env : Env) (jobs : List String)
    (s : PoolState) (h : PoolReachable env max_workers jobs s) :
    s.running.length ≤ 5 :=
  poolReachable_running_le env max_workers jobs s h

theorem pool_inflight_at_most_five_witness :
    PoolReachable envAllFail max_workers ["u1/a.json"]
      ⟨[], ["u1/a.json"], []⟩ ∧
    (PoolState.mk [] ["u1/a.json"] []).running.length ≤ 5 :=
  ⟨Relation.ReflTransGen.single
     (PoolStep.dispatch "u1/a.json" [] [] [] (by decide)),
   pool_inflight_at_most_five envAllFail ["u1/a.json"] _
     (Relation.ReflTransGen.single
       (PoolStep.dispatch "u1/a.json" [] [] [] (by decide)))⟩

end WeezApp
